import Mathlib

/-!
Shallow embedding of the Table subsystem of the flat-file SQL store
(src/src/table.rs), together with the query/type leaf components.

The persisted state of one existing table (its schema file and its entries
file) is modelled by `TableState`; every Table operation is a pure function
from a `TableState` and its arguments to a result paired with the persisted
state after the call.  A Rust `panic!` (e.g. `Option::unwrap` on `None`,
`Vec::remove` out of bounds) is modelled by the `ExecResult.panic` outcome,
with the state as it stood when the panic fired: since every operation of
table.rs performs its file writes only after all validation, an early
return or panic leaves the persisted state unchanged, and the model makes
that explicit.

Rust `HashMap<String, String>` row records are modelled as association
lists with unique keys (`Entry`): `Entry.insert` overwrites the value of an
existing key, as `HashMap::insert` does, and `Entry.get?` is keyed lookup.
-/

/-- Modelled from the spec (§4.10): `DataType` lives in the repository's
`types` module, which is not part of the provided sources.  The spec fixes
only its interface: a type tag validates a candidate string and produces a
canonical default string; the exact member set is a product decision.  We
model a tag by that interface. -/
structure DataType where
  is_valid : String → Bool
  default : String

/-- Modelled from the spec (§2, §3): the `Operator` enum of the
`query_parser` module (not in the provided sources); its six variants are
those matched in `Table::match_query` (table.rs lines 311-318). -/
inductive Operator where
  | Eq | NotEq | Gt | Lt | GtEq | LtEq
deriving DecidableEq, Repr

/-- Modelled from the spec (§3): a `Condition` is one
(column key, operator, literal string) triple, fields as destructured in
`Table::match_query` (table.rs lines 303-307). -/
structure Condition where
  key : String
  value : String
  operator : Operator
deriving DecidableEq, Repr

/-- Modelled from the spec (§3): `SelectCols` is either all columns or an
explicit ordered list of column names, as matched in `Table::insert` and
`Table::select`. -/
inductive SelectCols where
  | All : SelectCols
  | Cols : List String → SelectCols

/-- The table-level error enum of table.rs (lines 20-40), restricted to the
variants reachable in the in-memory model (I/O and serialization failures
have no counterpart once the two files are modelled as in-memory state).
Each variant carries its message string as in the source. -/
inductive TableError where
  | TableNotFond : String → TableError
  | ColNotFound : String → TableError
  | ColTypeNotFound : String → TableError
  | NumberMismatch : String → TableError
  | TypeErr : String → TableError
  | ColAlreadyExist : String → TableError
deriving DecidableEq, Repr

/-- Outcome of running one Rust operation: `Ok`, `Err`, or a `panic!`. -/
inductive ExecResult (α : Type) where
  | ok : α → ExecResult α
  | error : TableError → ExecResult α
  | panic : ExecResult α

/-- One row record: `HashMap<String, String>` modelled as an association
list with unique keys. -/
abbrev Entry : Type := List (String × String)

/-- Rust `HashMap::insert`: overwrite the value at an existing key, otherwise
add the pair. -/
def Entry.insert (e : Entry) (k v : String) : Entry :=
  if e.any (fun p => p.1 == k) then
    e.map (fun p => if p.1 == k then (k, v) else p)
  else
    e ++ [(k, v)]

/-- Rust `HashMap::get`: keyed lookup. -/
def Entry.get? (e : Entry) (k : String) : Option String :=
  (e.find? (fun p => p.1 == k)).map (·.2)

/-- The schema record of table.rs (lines 339-343): parallel ordered lists
of column names and type tags. -/
structure Schema where
  cols : List String
  types : List DataType

/-- The persisted state of one existing table: the contents of its schema
file and of its entries file. -/
structure TableState where
  schema : Schema
  entries : List Entry

/-- Rust's `Ord` on `String` as a Boolean test: lexicographic comparison,
decided by the structural core instance (`String.decLt`) so that it
evaluates inside the kernel. -/
def strLt (a b : String) : Bool :=
  @decide (@LT.lt String String.instLT a b) (String.decLt a b)

/-- Rust's `<=` on `String`: decided by the structural core instance. -/
def strLe (a b : String) : Bool :=
  @decide (@LE.le String String.instLE a b) (String.decLE a b)

/-- Rust's `char::is_whitespace`: a character has the Unicode White_Space
property iff its code point is one of U+0009..U+000D, U+0020, U+0085,
U+00A0, U+1680, U+2000..U+200A, U+2028, U+2029, U+202F, U+205F, U+3000.
(Lean's `Char.isWhitespace` covers only space/tab/CR/LF and would be
unfaithful to the code.) -/
def isRustWhitespace (c : Char) : Bool :=
  let n := c.toNat
  decide ((0x9 ≤ n ∧ n ≤ 0xD) ∨ n = 0x20 ∨ n = 0x85 ∨ n = 0xA0 ∨ n = 0x1680 ∨
    (0x2000 ≤ n ∧ n ≤ 0x200A) ∨ n = 0x2028 ∨ n = 0x2029 ∨ n = 0x202F ∨
    n = 0x205F ∨ n = 0x3000)

/-- Rust's `str::trim`, modelled structurally on the character list: drop
Unicode-whitespace characters from both ends.  (Lean's own `String.trim`
is defined by well-founded recursion on byte positions and does not reduce
in the kernel, besides trimming a smaller character set.) -/
def strTrim (s : String) : String :=
  ⟨((s.data.dropWhile isRustWhitespace).reverse.dropWhile isRustWhitespace).reverse⟩

namespace Table

/-- Embedding of `Table::match_query` (table.rs lines 298-320): the six comparison
operators act on the stored string and the literal of the condition;
`Gt`/`Lt`/`GtEq`/`LtEq` are Rust's lexicographic string order. -/
def match_query (condition : Option Condition) (entry : Entry) : Bool :=
  match condition with
  | none => true
  | some c =>
    match entry.get? c.key with
    | none => false
    | some v =>
      match c.operator with
      | .Eq => v == c.value
      | .NotEq => v != c.value
      | .Gt => strLt c.value v
      | .Lt => strLt v c.value
      | .GtEq => strLe c.value v
      | .LtEq => strLe v c.value

/-- Embedding of `Table::create` (table.rs lines 50-62): writes the given columns and
types verbatim as the schema file and `[]` as the entries file, with no
length or duplicate check. -/
def create (cols : List String) (types : List DataType) : TableState :=
  { schema := { cols := cols, types := types }, entries := [] }

/-- Column-list resolution at the top of `Table::insert` (lines 68-71):
`All` expands to the schema's full column order, an explicit list is used
verbatim. -/
def resolveCols (schema : Schema) : SelectCols → List String
  | .Cols cs => cs
  | .All => schema.cols

/-- The first loop of `Table::insert` (lines 73-86): for each column, find
its position in the schema (`ColNotFound` if absent), fetch the type at
that position (`ColTypeNotFound` if missing).  The Rust code stores the
results in a `HashMap` keyed by column and reads it back with
`col_type_map[col]` while zipping the very same `cols` list with the row;
we keep the resolved `(column, type)` pair in column-list order, which
yields the identical pairing (duplicate column names resolve to the same
first position, hence the same type, in both representations). -/
def resolveColTypes (schema : Schema) : List String → ExecResult (List (String × DataType))
  | [] => .ok []
  | col :: rest =>
    match schema.cols.findIdx? (fun c => c == col) with
    | none => .error (.ColNotFound col)
    | some pos =>
      match schema.types.get? pos with
      | none => .error (.ColTypeNotFound col)
      | some dtype =>
        match resolveColTypes schema rest with
        | .ok tl => .ok ((col, dtype) :: tl)
        | .error e => .error e
        | .panic => .panic

/-- The inner loop of `Table::insert` (lines 100-104): zip the columns with
the row's values, validate each value against its column's type, and build
the row record by successive map insertion, first pair first (so a later
duplicate column overwrites an earlier one, as with `HashMap::insert`). -/
def buildRow (acc : Entry) : List ((String × DataType) × String) → ExecResult Entry
  | [] => .ok acc
  | ((col, dtype), val) :: rest =>
    if dtype.is_valid val then
      buildRow (Entry.insert acc col val) rest
    else
      .error (.TypeErr val)

/-- The row loop of `Table::insert` (lines 88-107): arity check per row
(`NumberMismatch` naming the row index), then per-value validation; all
rows are processed before anything is written. -/
def buildEntries (colTypes : List (String × DataType)) :
    List (List String) → Nat → ExecResult (List Entry)
  | [], _ => .ok []
  | row :: rest, idx =>
    if row.length ≠ colTypes.length then
      .error (.NumberMismatch (toString idx))
    else
      match buildRow [] (colTypes.zip row) with
      | .ok e =>
        match buildEntries colTypes rest (idx + 1) with
        | .ok es => .ok (e :: es)
        | .error err => .error err
        | .panic => .panic
      | .error err => .error err
      | .panic => .panic

/-- The row record that `Table::insert` builds for one valid row (lines
100-104), stated independently of validation: the map obtained by inserting
the (column, value) pairs of the resolved column list zipped with the row,
in order, into an empty map. -/
def rowRecord (rcols : List String) (row : List String) : Entry :=
  (rcols.zip row).foldl (fun m p => Entry.insert m p.1 p.2) []

/-- Embedding of `Table::insert` (table.rs lines 64-119): resolve the column list,
resolve each column's type, validate and build every row, and only then
append the new entries to the existing sequence in one write. -/
def insert (st : TableState) (cols : SelectCols) (values : List (List String)) :
    ExecResult Unit × TableState :=
  let rcols := resolveCols st.schema cols
  match resolveColTypes st.schema rcols with
  | .error e => (.error e, st)
  | .panic => (.panic, st)
  | .ok colTypes =>
    match buildEntries colTypes values 0 with
    | .error e => (.error e, st)
    | .panic => (.panic, st)
    | .ok newEntries =>
      (.ok (), { st with entries := st.entries ++ newEntries })

/-- The projection closure of `Table::select` (lines 133-139): for each
requested column, look the trimmed name up in the source entry and
`unwrap` the result (`none` = panic), storing it under the untrimmed
name. -/
def projectEntry (selectedCols : List String) (entry : Entry) : Option Entry :=
  selectedCols.foldlM
    (fun m col => (entry.get? (strTrim col)).map (fun v => Entry.insert m col v)) []

/-- Embedding of `Table::select` (table.rs lines 121-144): filter all entries by the
condition, then project; `All` passes entries through unchanged, an
explicit column list rebuilds each record via `projectEntry`, panicking on
a missing column.  No write is performed. -/
def select (st : TableState) (cols : SelectCols) (condition : Option Condition) :
    ExecResult (List Entry) × TableState :=
  let matched := st.entries.filter (fun e => match_query condition e)
  match cols with
  | .All => (.ok matched, st)
  | .Cols selectedCols =>
    match matched.mapM (projectEntry selectedCols) with
    | some res => (.ok res, st)
    | none => (.panic, st)

/-- Embedding of `Table::delete` (table.rs lines 146-157): keep exactly the entries that
do not match the mandatory condition and persist them. -/
def delete (st : TableState) (condition : Condition) : ExecResult Unit × TableState :=
  let entries := st.entries.filter (fun e => !match_query (some condition) e)
  (.ok (), { st with entries := entries })

/-- Embedding of `Table::alter` (table.rs lines 159-178): find the column's position
(`ColNotFound` if absent), check a type exists at that position
(`ColTypeNotFound` otherwise), then overwrite just that type entry and
persist the schema; entries are never read or written. -/
def alter (st : TableState) (col_name : String) (datatype : DataType) :
    ExecResult Unit × TableState :=
  match st.schema.cols.findIdx? (fun c => c == col_name) with
  | none => (.error (.ColNotFound col_name), st)
  | some pos =>
    match st.schema.types.get? pos with
    | none => (.error (.ColTypeNotFound col_name), st)
    | some _ =>
      (.ok (), { st with schema := { st.schema with types := st.schema.types.set pos datatype } })

/-- Embedding of `Table::truncate` (table.rs lines 192-195): replace the entries file
with an empty sequence. -/
def truncate (st : TableState) : ExecResult Unit × TableState :=
  (.ok (), { st with entries := [] })

/-- Embedding of `Table::col_exist` (table.rs lines 326-328). -/
def col_exist (schema : Schema) (col_name : String) : Bool :=
  (schema.cols.findIdx? (fun c => c == col_name)).isSome

/-- Embedding of `Table::add_col` (table.rs lines 197-228): reject an existing column
(`ColAlreadyExist`), then an inconsistent schema (`NumberMismatch`);
otherwise push the column and type onto the schema, insert the type's
default value into every existing entry, and persist entries then
schema. -/
def add_col (st : TableState) (col_name : String) (datatype : DataType) :
    ExecResult Unit × TableState :=
  if col_exist st.schema col_name then
    (.error (.ColAlreadyExist col_name), st)
  else if st.schema.cols.length ≠ st.schema.types.length then
    (.error (.NumberMismatch (toString st.schema.cols.length ++ "," ++
      toString st.schema.types.length)), st)
  else
    let schema : Schema := { cols := st.schema.cols ++ [col_name],
                             types := st.schema.types ++ [datatype] }
    let newEntries := st.entries.map (fun e => Entry.insert e col_name datatype.default)
    (.ok (), { schema := schema, entries := newEntries })

/-- Embedding of `Table::remove_col` (table.rs lines 230-246): find the column's
position (`ColNotFound` if absent), then `Vec::remove` the name and the
type at that position — the second removal panics when the type list is
shorter than the position, mirrored here — and persist the schema only;
entries are never touched. -/
def remove_col (st : TableState) (col_name : String) : ExecResult Unit × TableState :=
  match st.schema.cols.findIdx? (fun c => c == col_name) with
  | none => (.error (.ColNotFound col_name), st)
  | some pos =>
    if pos < st.schema.types.length then
      (.ok (), { st with schema := { cols := st.schema.cols.eraseIdx pos,
                                     types := st.schema.types.eraseIdx pos } })
    else
      (.panic, st)

end Table

/-- Modelled from the spec (§4.10): the exact member set of `DataType` is a
product decision; a text-like tag whose validator accepts every candidate,
with the empty string as canonical default, used to instantiate theorems at
concrete tables. -/
def textTag : DataType := ⟨fun _ => true, ""⟩

/-- Modelled from the spec (§4.10): an integer-like tag accepting exactly
nonempty digit strings, defaulting to "0", used to instantiate theorems at
concrete tables. -/
def integerTag : DataType := ⟨fun s => !s.data.isEmpty && s.data.all Char.isDigit, "0"⟩

/-- Modelled from the spec (§4.10): a boolean-like tag accepting exactly
"true" and "false", defaulting to "false", used to instantiate theorems at
concrete tables. -/
def booleanTag : DataType := ⟨fun s => s == "true" || s == "false", "false"⟩

/-- The §8 demonstration schema: columns `["sku","qty"]` with types
`[Text, Integer]`. -/
def demoSchema : Schema := { cols := ["sku", "qty"], types := [textTag, integerTag] }

/-- The §8 demonstration table, freshly created (no entries). -/
def emptyTable : TableState := { schema := demoSchema, entries := [] }

/-- The §8 demonstration table after inserting `[["a1","5"],["a2","3"]]`. -/
def twoRowTable : TableState :=
  { schema := demoSchema,
    entries := [[("sku", "a1"), ("qty", "5")], [("sku", "a2"), ("qty", "3")]] }

/-- A one-column table holding a single row `{"sku": "a1"}`. -/
def oneRowTable : TableState :=
  { schema := { cols := ["sku"], types := [textTag] }, entries := [[("sku", "a1")]] }

/-- The table `twoRowTable` after `alter("qty", Boolean)`: only the type at position
1 changes. -/
def alteredTable : TableState :=
  { schema := { cols := ["sku", "qty"], types := [textTag, booleanTag] },
    entries := twoRowTable.entries }

/-- The table `twoRowTable` after `add_col("active", Boolean)`: the pair is appended
to the schema and every row is backfilled with the default `"false"`. -/
def addedTable : TableState :=
  { schema := { cols := ["sku", "qty", "active"],
                types := [textTag, integerTag, booleanTag] },
    entries := [[("sku", "a1"), ("qty", "5"), ("active", "false")],
                [("sku", "a2"), ("qty", "3"), ("active", "false")]] }

/-- The table `twoRowTable` after `remove_col("qty")`: the schema pair at position 1
is gone, the rows still carry their `"qty"` values. -/
def removedTable : TableState :=
  { schema := { cols := ["sku"], types := [textTag] },
    entries := twoRowTable.entries }

/-- A table whose schema lists have diverged in length (1 column name, no
types), as `create` can produce. -/
def badSchemaTable : TableState :=
  { schema := { cols := ["a"], types := [] }, entries := [] }

/-- Helper: `resolveColTypes` resolves one (column, type) pair per requested
column, in order: the first projections of a successful resolution are
exactly the requested columns. -/
theorem resolveColTypes_ok_fst {schema : Schema} :
    ∀ {cs : List String} {ct : List (String × DataType)},
      Table.resolveColTypes schema cs = .ok ct → ct.map Prod.fst = cs := by
  intro cs
  induction cs with
  | nil =>
    intro ct h
    simp only [Table.resolveColTypes] at h
    cases h
    rfl
  | cons c rest ih =>
    intro ct h
    simp only [Table.resolveColTypes] at h
    split at h
    · cases h
    · split at h
      · cases h
      · split at h
        · cases h
          simp only [List.map_cons]
          exact congrArg (c :: ·) (ih (by assumption))
        · cases h
        · cases h

/-- Helper: `buildRow` never panics. -/
theorem buildRow_ne_panic :
    ∀ (l : List ((String × DataType) × String)) (acc : Entry),
      Table.buildRow acc l ≠ ExecResult.panic := by
  intro l
  induction l with
  | nil => intro acc h; cases h
  | cons p rest ih =>
    intro acc
    obtain ⟨⟨col, dtype⟩, val⟩ := p
    simp only [Table.buildRow]
    split
    · exact ih _
    · intro h; cases h

/-- A successful `buildRow` is the in-order fold of map insertions of the
(column, value) pairs. -/
theorem buildRow_ok :
    ∀ {l : List ((String × DataType) × String)} {acc : Entry} {e : Entry},
      Table.buildRow acc l = .ok e →
      e = l.foldl (fun m p => Entry.insert m p.1.1 p.2) acc := by
  intro l
  induction l with
  | nil =>
    intro acc e h
    cases h
    rfl
  | cons p rest ih =>
    intro acc e h
    obtain ⟨⟨col, dtype⟩, val⟩ := p
    simp only [Table.buildRow] at h
    split at h
    · exact ih h
    · cases h

/-- Helper: `buildRow` fails on a row containing a value its column's type
rejects. -/
theorem buildRow_error :
    ∀ {l : List ((String × DataType) × String)} (acc : Entry),
      (∃ p ∈ l, p.1.2.is_valid p.2 = false) →
      ∃ err, Table.buildRow acc l = .error err := by
  intro l
  induction l with
  | nil =>
    intro acc h
    obtain ⟨p, hp, _⟩ := h
    cases hp
  | cons q rest ih =>
    intro acc h
    obtain ⟨⟨col, dtype⟩, val⟩ := q
    simp only [Table.buildRow]
    split
    · apply ih
      obtain ⟨p, hp, hbad⟩ := h
      cases hp with
      | head => simp_all
      | tail _ hmem => exact ⟨p, hmem, hbad⟩
    · exact ⟨_, rfl⟩

/-- A successful `buildEntries` returns one row record per input row, in
input order. -/
theorem buildEntries_ok {ct : List (String × DataType)} :
    ∀ {vals : List (List String)} {idx : Nat} {es : List Entry},
      Table.buildEntries ct vals idx = .ok es →
      es = vals.map
        (fun row => (ct.zip row).foldl (fun m p => Entry.insert m p.1.1 p.2) []) := by
  intro vals
  induction vals with
  | nil =>
    intro idx es h
    cases h
    rfl
  | cons row rest ih =>
    intro idx es h
    simp only [Table.buildEntries] at h
    split at h
    · cases h
    · split at h
      · split at h
        · cases h
          simp only [List.map_cons]
          exact congrArg₂ (· :: ·) (buildRow_ok (by assumption)) (ih (by assumption))
        · cases h
        · cases h
      · cases h
      · cases h

/-- Helper: `buildEntries` fails whenever some row fails the arity check or holds a
value its column's type rejects. -/
theorem buildEntries_error {ct : List (String × DataType)} :
    ∀ {vals : List (List String)} (idx : Nat),
      (∃ row ∈ vals, row.length ≠ ct.length ∨
        ∃ p ∈ ct.zip row, p.1.2.is_valid p.2 = false) →
      ∃ err, Table.buildEntries ct vals idx = .error err := by
  intro vals
  induction vals with
  | nil =>
    intro idx h
    obtain ⟨row, hrow, _⟩ := h
    cases hrow
  | cons row rest ih =>
    intro idx h
    simp only [Table.buildEntries]
    split
    · exact ⟨_, rfl⟩
    · rename_i hlen
      obtain ⟨r, hr, hbad⟩ := h
      cases hr with
      | head =>
        cases hbad with
        | inl h1 => exact absurd h1 hlen
        | inr h2 =>
          obtain ⟨err, herr⟩ := buildRow_error ([] : Entry) h2
          rw [herr]
          exact ⟨err, rfl⟩
      | tail _ hmem =>
        obtain ⟨err, herr⟩ := ih (idx + 1) ⟨r, hmem, hbad⟩
        cases hbr : Table.buildRow [] (ct.zip row) with
        | ok e =>
          rw [herr]
          exact ⟨err, rfl⟩
        | error e => exact ⟨e, rfl⟩
        | panic => exact absurd hbr (buildRow_ne_panic _ _)

/-- Folding map insertion over the (column, type)-value pairs equals
folding it over the column-value pairs, once the types are projected
away. -/
theorem zip_foldl_fst (ct : List (String × DataType)) :
    ∀ (row : List String) (acc : Entry),
      (ct.zip row).foldl (fun m p => Entry.insert m p.1.1 p.2) acc =
        ((ct.map Prod.fst).zip row).foldl (fun m p => Entry.insert m p.1 p.2) acc := by
  induction ct with
  | nil => intro row acc; rfl
  | cons p rest ih =>
    intro row acc
    cases row with
    | nil => rfl
    | cons v vs =>
      simp only [List.zip_cons_cons, List.foldl_cons, List.map_cons]
      exact ih vs _

/-- C1: insert is all-or-nothing: whenever the requested columns resolve
against the schema but some row fails the arity check against the resolved
column list, or holds a value rejected by its column's type validator, the
whole insert returns an error and the persisted state is exactly the prior
state — no row of the batch is written. -/
theorem insert_all_or_nothing (st : TableState) (cols : SelectCols)
    (values : List (List String)) (ct : List (String × DataType))
    (hok : Table.resolveColTypes st.schema (Table.resolveCols st.schema cols) = .ok ct)
    (hbad : ∃ row ∈ values,
      row.length ≠ (Table.resolveCols st.schema cols).length ∨
      ∃ p ∈ ct.zip row, p.1.2.is_valid p.2 = false) :
    ∃ err, Table.insert st cols values = (.error err, st) := by
  have hlen : ct.length = (Table.resolveCols st.schema cols).length := by
    rw [← resolveColTypes_ok_fst hok, List.length_map]
  rw [← hlen] at hbad
  obtain ⟨err, herr⟩ := buildEntries_error 0 hbad
  refine ⟨err, ?_⟩
  simp only [Table.insert, hok, herr]

/-- Witness for C1: inserting `[["a1","5"],["a2"]]` into the fresh §8
table fails (row 1 has arity 1, the resolved column list has length 2) and
leaves the table empty. -/
theorem insert_all_or_nothing_witness :
    ∃ err, Table.insert emptyTable .All [["a1", "5"], ["a2"]] =
      (.error err, emptyTable) :=
  insert_all_or_nothing emptyTable .All [["a1", "5"], ["a2"]]
    [("sku", textTag), ("qty", integerTag)] rfl
    ⟨["a2"], by decide, Or.inl (by decide)⟩

/-- C2: a successful insert appends, after the prior entries in their
original order, one new entry per input row in input order; the entry for a
row is the record of exactly the (column, value) pairs pairing the resolved
column list with that row, where `All` resolves to the schema's full column
order and an explicit list is used verbatim; the schema is untouched. -/
theorem insert_appends (st : TableState) (cols : SelectCols)
    (values : List (List String)) (st' : TableState)
    (h : Table.insert st cols values = (.ok (), st')) :
    st'.schema = st.schema ∧
    st'.entries = st.entries ++
      values.map (Table.rowRecord (Table.resolveCols st.schema cols)) ∧
    Table.resolveCols st.schema .All = st.schema.cols ∧
    (∀ l, Table.resolveCols st.schema (.Cols l) = l) := by
  simp only [Table.insert] at h
  split at h
  · cases h
  · cases h
  · rename_i ct hct
    split at h
    · cases h
    · cases h
    · rename_i es hes
      cases h
      refine ⟨rfl, ?_, rfl, fun _ => rfl⟩
      simp only [buildEntries_ok hes, ← resolveColTypes_ok_fst hct]
      refine congrArg (st.entries ++ ·) (List.map_congr_left ?_)
      intro row _
      simpa only [Table.rowRecord] using zip_foldl_fst ct row []

/-- Witness for C2 at the §8 example: inserting `[["a1","5"],["a2","3"]]`
with `All` into the fresh table yields exactly the two expected rows in
order. -/
theorem insert_appends_witness :
    twoRowTable.schema = emptyTable.schema ∧
    twoRowTable.entries = emptyTable.entries ++
      [["a1", "5"], ["a2", "3"]].map
        (Table.rowRecord (Table.resolveCols emptyTable.schema .All)) :=
  ⟨(insert_appends emptyTable .All [["a1", "5"], ["a2", "3"]] twoRowTable rfl).1,
   (insert_appends emptyTable .All [["a1", "5"], ["a2", "3"]] twoRowTable rfl).2.1⟩

/-- A column name not in the schema makes the position lookup of
table.rs (`position(|c| c == col)`) come up empty. -/
theorem findIdx?_beq_none {l : List String} {c : String} (h : c ∉ l) :
    l.findIdx? (fun x => x == c) = none := by
  rw [List.findIdx?_eq_none_iff]
  intro x hx
  simp only [beq_eq_false_iff_ne]
  exact fun hxc => h (hxc ▸ hx)

/-- A successful position lookup lands inside the list, on the sought
column name. -/
theorem findIdx?_beq_some {l : List String} {c : String} {pos : Nat}
    (h : l.findIdx? (fun x => x == c) = some pos) :
    ∃ hp : pos < l.length, l.get ⟨pos, hp⟩ = c := by
  rw [List.findIdx?_eq_some_iff_getElem] at h
  obtain ⟨hp, hpc, _⟩ := h
  exact ⟨hp, by simpa using hpc⟩

/-- Helper: `col_exist` tests membership of the column name in the schema's
column list. -/
theorem col_exist_iff {schema : Schema} {c : String} :
    Table.col_exist schema c = true ↔ c ∈ schema.cols := by
  rw [Table.col_exist, Option.isSome_iff_ne_none]
  constructor
  · intro h
    rcases hf : schema.cols.findIdx? (fun x => x == c) with _ | pos
    · exact absurd hf h
    · obtain ⟨hp, hpc⟩ := findIdx?_beq_some hf
      exact hpc ▸ List.get_mem _ _ hp
  · intro hc hnone
    rw [List.findIdx?_eq_none_iff] at hnone
    have := hnone c hc
    simp at this

/-- Anatomy of a successful `alter`: the column was found at some
position, only the type at that position changed, and the entries file was
never touched. -/
theorem alter_ok {st : TableState} {c : String} {dt : DataType} {st' : TableState}
    (h : Table.alter st c dt = (.ok (), st')) :
    ∃ pos, st.schema.cols.findIdx? (fun x => x == c) = some pos ∧
      st'.schema.cols = st.schema.cols ∧
      st'.schema.types = st.schema.types.set pos dt ∧
      st'.entries = st.entries := by
  simp only [Table.alter] at h
  split at h
  · cases h
  · rename_i pos hpos
    split at h
    · cases h
    · cases h
      exact ⟨pos, hpos, rfl, rfl, rfl⟩

/-- Anatomy of a successful `add_col`: the column was fresh, the schema's
two lists were of equal length, the pair was appended, and every entry
received the type's default value under the new column. -/
theorem add_col_ok {st : TableState} {c : String} {dt : DataType} {st' : TableState}
    (h : Table.add_col st c dt = (.ok (), st')) :
    st'.schema.cols = st.schema.cols ++ [c] ∧
    st'.schema.types = st.schema.types ++ [dt] ∧
    st'.entries = st.entries.map (fun e => Entry.insert e c dt.default) ∧
    c ∉ st.schema.cols ∧
    st.schema.cols.length = st.schema.types.length := by
  simp only [Table.add_col] at h
  split at h
  · cases h
  · rename_i hex
    split at h
    · cases h
    · rename_i hlen
      cases h
      refine ⟨rfl, rfl, rfl, ?_, not_not.mp hlen⟩
      intro hc
      exact hex (col_exist_iff.mpr hc)

/-- Anatomy of a successful `remove_col`: the column was found at some
position within both lists, the pair at that position was removed, and the
entries file was never touched. -/
theorem remove_col_ok {st : TableState} {c : String} {st' : TableState}
    (h : Table.remove_col st c = (.ok (), st')) :
    ∃ pos, st.schema.cols.findIdx? (fun x => x == c) = some pos ∧
      pos < st.schema.types.length ∧
      st'.schema.cols = st.schema.cols.eraseIdx pos ∧
      st'.schema.types = st.schema.types.eraseIdx pos ∧
      st'.entries = st.entries := by
  simp only [Table.remove_col] at h
  split at h
  · cases h
  · rename_i pos hpos
    split at h
    · rename_i hlt
      cases h
      exact ⟨pos, hpos, hlt, rfl, rfl, rfl⟩
    · cases h

/-- C6 counterexample: `create` persists its two input lists verbatim with
no defensive length check, so the claim's "after create(cols, types) for
any inputs" fails: creating with columns `["a"]` and an empty type list
yields a schema whose sequences have lengths 1 and 0. -/
theorem create_unequal_counterexample :
    ¬ ((Table.create ["a"] []).schema.cols.length =
       (Table.create ["a"] []).schema.types.length) := by decide

/-- C6 (amended): the equal-length schema invariant holds after `create`
on equal-length inputs, and is preserved by every successful `alter`,
`add_col` and `remove_col` starting from a schema whose two sequences have
equal length. -/
theorem schema_len_invariant
    (cols : List String) (types : List DataType)
    (st1 : TableState) (c1 : String) (dt1 : DataType) (st1' : TableState)
    (st2 : TableState) (c2 : String) (dt2 : DataType) (st2' : TableState)
    (st3 : TableState) (c3 : String) (st3' : TableState) :
    (cols.length = types.length →
      (Table.create cols types).schema.cols.length =
        (Table.create cols types).schema.types.length) ∧
    (st1.schema.cols.length = st1.schema.types.length →
      Table.alter st1 c1 dt1 = (.ok (), st1') →
      st1'.schema.cols.length = st1'.schema.types.length) ∧
    (st2.schema.cols.length = st2.schema.types.length →
      Table.add_col st2 c2 dt2 = (.ok (), st2') →
      st2'.schema.cols.length = st2'.schema.types.length) ∧
    (st3.schema.cols.length = st3.schema.types.length →
      Table.remove_col st3 c3 = (.ok (), st3') →
      st3'.schema.cols.length = st3'.schema.types.length) := by
  refine ⟨fun h => h, ?_, ?_, ?_⟩
  · intro hlen h
    obtain ⟨pos, _, hcols, htypes, _⟩ := alter_ok h
    rw [hcols, htypes, List.length_set, hlen]
  · intro hlen h
    obtain ⟨hcols, htypes, _, _, _⟩ := add_col_ok h
    simp [hcols, htypes, hlen]
  · intro hlen h
    obtain ⟨pos, hpos, hlt, hcols, htypes, _⟩ := remove_col_ok h
    obtain ⟨hp, _⟩ := findIdx?_beq_some hpos
    rw [hcols, htypes, List.length_eraseIdx_of_lt hp,
      List.length_eraseIdx_of_lt hlt, hlen]

/-- Witness for C6 (amended) at concrete tables: create on the §8 inputs;
alter `qty` to Boolean, add `active`, and remove `qty` on the two-row
table — each preserves equal schema lengths. -/
theorem schema_len_invariant_witness :
    (Table.create ["sku", "qty"] [textTag, integerTag]).schema.cols.length =
      (Table.create ["sku", "qty"] [textTag, integerTag]).schema.types.length ∧
    alteredTable.schema.cols.length = alteredTable.schema.types.length ∧
    addedTable.schema.cols.length = addedTable.schema.types.length ∧
    removedTable.schema.cols.length = removedTable.schema.types.length := by
  obtain ⟨h1, h2, h3, h4⟩ := schema_len_invariant ["sku", "qty"] [textTag, integerTag]
    twoRowTable "qty" booleanTag alteredTable
    twoRowTable "active" booleanTag addedTable
    twoRowTable "qty" removedTable
  exact ⟨h1 rfl, h2 rfl rfl, h3 rfl rfl, h4 rfl rfl⟩

/-- C7: the operation `add_col` rejects a column already present with `ColAlreadyExist`;
on a fresh column it rejects an unequal-length schema with
`NumberMismatch`; otherwise it appends the (column, type) pair to the
schema and inserts the type's canonical default value into every existing
entry, persisting both. -/
theorem add_col_spec (st : TableState) (c : String) (dt : DataType) (st' : TableState) :
    (c ∈ st.schema.cols →
      Table.add_col st c dt = (.error (.ColAlreadyExist c), st)) ∧
    (c ∉ st.schema.cols → st.schema.cols.length ≠ st.schema.types.length →
      ∃ msg, Table.add_col st c dt = (.error (.NumberMismatch msg), st)) ∧
    (Table.add_col st c dt = (.ok (), st') →
      st'.schema.cols = st.schema.cols ++ [c] ∧
      st'.schema.types = st.schema.types ++ [dt] ∧
      st'.entries = st.entries.map (fun e => Entry.insert e c dt.default)) := by
  refine ⟨?_, ?_, ?_⟩
  · intro hc
    simp only [Table.add_col, col_exist_iff.mpr hc, if_true]
  · intro hc hlen
    have hex : Table.col_exist st.schema c = false :=
      Bool.eq_false_iff.mpr (fun ht => hc (col_exist_iff.mp ht))
    refine ⟨toString st.schema.cols.length ++ "," ++ toString st.schema.types.length, ?_⟩
    simp [Table.add_col, hex, hlen]
  · intro h
    obtain ⟨hcols, htypes, hentries, _, _⟩ := add_col_ok h
    exact ⟨hcols, htypes, hentries⟩

/-- Witness for C7: adding `"sku"` again fails `ColAlreadyExist`; adding
`"b"` to a table whose schema lists have lengths 1 and 0 fails
`NumberMismatch`; adding `"active"` as Boolean appends it to the schema
and backfills both rows with `"false"`. -/
theorem add_col_spec_witness :
    Table.add_col twoRowTable "sku" textTag =
      (.error (.ColAlreadyExist "sku"), twoRowTable) ∧
    (∃ msg, Table.add_col badSchemaTable "b" textTag =
      (.error (.NumberMismatch msg), badSchemaTable)) ∧
    (addedTable.schema.cols = twoRowTable.schema.cols ++ ["active"] ∧
     addedTable.schema.types = twoRowTable.schema.types ++ [booleanTag] ∧
     addedTable.entries = twoRowTable.entries.map
       (fun e => Entry.insert e "active" booleanTag.default)) :=
  ⟨(add_col_spec twoRowTable "sku" textTag twoRowTable).1 (by decide),
   (add_col_spec badSchemaTable "b" textTag badSchemaTable).2.1 (by decide) (by decide),
   (add_col_spec twoRowTable "active" booleanTag addedTable).2.2 rfl⟩

/-- C8: the operation `alter` on an absent column fails `ColNotFound`, leaving the state
(schema included) unchanged; a successful `alter` replaces only the type at
the column's position — the column list, the types at every other
position, and the whole entry sequence are unchanged, and no stored value
is revalidated or converted (entries are never read). -/
theorem alter_spec (st : TableState) (c : String) (dt : DataType) (st' : TableState) :
    (c ∉ st.schema.cols →
      Table.alter st c dt = (.error (.ColNotFound c), st)) ∧
    (Table.alter st c dt = (.ok (), st') →
      ∃ pos, st.schema.cols.findIdx? (fun x => x == c) = some pos ∧
        ∃ hp : pos < st.schema.cols.length,
          st.schema.cols.get ⟨pos, hp⟩ = c ∧
          st'.schema.cols = st.schema.cols ∧
          st'.schema.types = st.schema.types.set pos dt ∧
          st'.entries = st.entries ∧
          ∀ j, j ≠ pos → st'.schema.types.get? j = st.schema.types.get? j) := by
  constructor
  · intro hc
    simp only [Table.alter, findIdx?_beq_none hc]
  · intro h
    obtain ⟨pos, hpos, hcols, htypes, hentries⟩ := alter_ok h
    obtain ⟨hp, hpc⟩ := findIdx?_beq_some hpos
    refine ⟨pos, hpos, hp, hpc, hcols, htypes, hentries, ?_⟩
    intro j hj
    rw [htypes]
    simpa using List.getElem?_set_ne (Ne.symm hj)

/-- Witness for C8: altering absent `"x"` fails `ColNotFound`; altering
`"qty"` to Boolean changes only the type at position 1 and keeps both rows
byte-for-byte. -/
theorem alter_spec_witness :
    Table.alter twoRowTable "x" textTag =
      (.error (.ColNotFound "x"), twoRowTable) ∧
    (∃ pos, twoRowTable.schema.cols.findIdx? (fun x => x == "qty") = some pos ∧
      alteredTable.schema.types = twoRowTable.schema.types.set pos booleanTag ∧
      alteredTable.entries = twoRowTable.entries) := by
  refine ⟨(alter_spec twoRowTable "x" textTag twoRowTable).1 (by decide), ?_⟩
  obtain ⟨pos, hpos, _, _, _, htypes, hentries, _⟩ :=
    (alter_spec twoRowTable "qty" booleanTag alteredTable).2 rfl
  exact ⟨pos, hpos, htypes, hentries⟩

/-- C9: the operation `remove_col` on an absent column fails `ColNotFound`; a successful
`remove_col` deletes exactly the matched column-name/type pair from the
schema while the entry sequence is untouched — entries keep their values
under the removed column. -/
theorem remove_col_spec (st : TableState) (c : String) (st' : TableState) :
    (c ∉ st.schema.cols →
      Table.remove_col st c = (.error (.ColNotFound c), st)) ∧
    (Table.remove_col st c = (.ok (), st') →
      ∃ pos, st.schema.cols.findIdx? (fun x => x == c) = some pos ∧
        ∃ hp : pos < st.schema.cols.length,
          st.schema.cols.get ⟨pos, hp⟩ = c ∧
          st'.schema.cols = st.schema.cols.eraseIdx pos ∧
          st'.schema.types = st.schema.types.eraseIdx pos ∧
          st'.entries = st.entries) := by
  constructor
  · intro hc
    simp only [Table.remove_col, findIdx?_beq_none hc]
  · intro h
    obtain ⟨pos, hpos, _, hcols, htypes, hentries⟩ := remove_col_ok h
    obtain ⟨hp, hpc⟩ := findIdx?_beq_some hpos
    exact ⟨pos, hpos, hp, hpc, hcols, htypes, hentries⟩

/-- Witness for C9: removing absent `"x"` fails `ColNotFound`; removing
`"qty"` drops the pair at position 1 from the schema while both rows keep
their `"qty"` values. -/
theorem remove_col_spec_witness :
    Table.remove_col twoRowTable "x" =
      (.error (.ColNotFound "x"), twoRowTable) ∧
    (∃ pos, twoRowTable.schema.cols.findIdx? (fun x => x == "qty") = some pos ∧
      removedTable.schema.cols = twoRowTable.schema.cols.eraseIdx pos ∧
      removedTable.schema.types = twoRowTable.schema.types.eraseIdx pos ∧
      removedTable.entries = twoRowTable.entries) := by
  refine ⟨(remove_col_spec twoRowTable "x" twoRowTable).1 (by decide), ?_⟩
  obtain ⟨pos, hpos, _, _, hcols, htypes, hentries⟩ :=
    (remove_col_spec twoRowTable "qty" removedTable).2 rfl
  exact ⟨pos, hpos, hcols, htypes, hentries⟩

/-- C3: the condition-match function: an absent condition matches every
entry; an entry without the condition's key never matches; otherwise `Eq`
and `NotEq` are exact string equality and inequality, and the four ordering
operators compare the stored value against the literal in the lexicographic
string order (core's `String.instLT`, the order Rust's `Ord` on `String`
realises) — the comparison never consults the column's declared `DataType`
(`match_query` takes no schema or type argument at all). -/
theorem match_query_spec (e : Entry) (k lit s : String) (op : Operator) :
    Table.match_query none e = true ∧
    (e.get? k = none → Table.match_query (some ⟨k, lit, op⟩) e = false) ∧
    (e.get? k = some s →
      (Table.match_query (some ⟨k, lit, op⟩) e = true ↔
        match op with
        | .Eq => s = lit
        | .NotEq => s ≠ lit
        | .Gt => @LT.lt String String.instLT lit s
        | .Lt => @LT.lt String String.instLT s lit
        | .GtEq => @LE.le String String.instLE lit s
        | .LtEq => @LE.le String String.instLE s lit)) := by
  refine ⟨rfl, ?_, ?_⟩
  · intro h
    simp only [Table.match_query, h]
  · intro h
    cases op <;>
      simp only [Table.match_query, h, strLt, strLe, beq_iff_eq, bne_iff_ne,
        decide_eq_true_eq]

/-- Witness for C3 at a concrete instance: on the entry `{"qty":"5"}`, the
condition `(qty, Gt, "3")` matches because `"3" < "5"` lexicographically. -/
theorem match_query_spec_witness :
    Table.match_query (some ⟨"qty", "3", .Gt⟩) [("qty", "5")] = true :=
  ((match_query_spec [("qty", "5")] "qty" "3" "5" .Gt).2.2 (by decide)).mpr (by decide)

/-- C4: the operation `delete` keeps exactly the entries that do not match the condition,
in their original relative order (the survivors form a sublist of the prior
sequence), and leaves the schema alone. -/
theorem delete_spec (st : TableState) (c : Condition) :
    Table.delete st c =
      (.ok (), { st with entries :=
        st.entries.filter (fun e => !Table.match_query (some c) e) }) ∧
    List.Sublist (Table.delete st c).2.entries st.entries :=
  ⟨rfl, List.filter_sublist st.entries⟩

/-- C5 (the code falls short of this claim): `select` with an explicit
column list panics — `Option::unwrap` on `None` at table.rs line 136 —
instead of returning a recoverable error, when a requested column is absent
from an entry that passes the filter: here a table whose single entry is
`{"sku":"a1"}`, selected with column list `["qty"]`. -/
theorem select_missing_col_panics :
    Table.select oneRowTable (.Cols ["qty"]) none = (.panic, oneRowTable) := rfl

/-- C10: in `select` with an explicit column list, each requested column
name is trimmed before the lookup in the source entry, but the untrimmed
name keys the projected record. -/
theorem select_trims_lookup_untrimmed_key (st : TableState) (e : Entry) (c v : String)
    (he : st.entries = [e]) (hv : e.get? (strTrim c) = some v) :
    Table.select st (.Cols [c]) none = (.ok [[(c, v)]], st) := by
  simp only [Table.select, he, Table.match_query, List.filter_true,
    List.mapM_cons, List.mapM_nil, Table.projectEntry, List.foldlM, hv,
    Option.map_some, Option.bind_some, Option.pure_def, Option.bind_eq_bind,
    Option.some_bind, Entry.insert]
  rfl

/-- Witness for C10: the entry holds key `"sku"`; selecting `" sku "`
yields the record keyed by the untrimmed `" sku "` with the `"sku"`
value. -/
theorem select_trims_witness :
    Table.select oneRowTable (.Cols [" sku "]) none =
      (.ok [[(" sku ", "a1")]], oneRowTable) :=
  select_trims_lookup_untrimmed_key oneRowTable [("sku", "a1")] " sku " "a1"
    rfl (by decide)
